import Mathlib

/-!
# Verification of the thermal field engine (`scripts/thermal_field.py`)

Shallow embedding of the Thermal Field Analysis & Optimization Engine.
Temperature and load fields are modelled as `List ℚ` (exact real-valued
samples; the Python floats are modelled by exact rationals), and the
transcendental outputs (`arctan`, `log`, `sqrt`) live in `ℝ`.  The
rational cores of every operation are computable; only the final
real-valued combinations are noncomputable.

Elementwise numpy arithmetic on same-length 1-D arrays is embedded with
`List.zipWith`; the broadcast-failure behaviour of numpy on mismatched
lengths is modelled separately by `npBroadcast` (returning `none` where
numpy raises a broadcast `ValueError`).
-/

namespace ThermalField

/-- Numerical stability constant `EPSILON = 1e-10` from the source. -/
def EPSILON : ℚ := 1e-10

/-- Temperature-load scaling coefficient (K per unit load) from the source. -/
def TEMP_LOAD_COEFFICIENT : ℚ := 5.0

/-- Interior/right-edge part of numpy's 1-D `np.gradient` with unit spacing:
`gradAux p l` walks the list `l` carrying the previous element `p`, emitting
central differences `(next - prev) / 2` and the backward difference
`last - prev` at the right edge. -/
def gradAux (p : ℚ) : List ℚ → List ℚ
  | [] => []
  | [c] => [c - p]
  | c :: n :: rest => (n - p) / 2 :: gradAux c (n :: rest)

/-- numpy's 1-D `np.gradient` with unit spacing: forward difference at the
left edge, central differences inside, backward difference at the right
edge.  (numpy raises for arrays of fewer than 2 elements; those cases are
given junk values and are not used by any claim.) -/
def npGradient : List ℚ → List ℚ
  | [] => []
  | [_] => [0]
  | a :: b :: rest => (b - a) :: gradAux a (b :: rest)

/-- `np.max` of a 1-D array (junk value 0 for the empty array, where numpy
raises). -/
def npMax : List ℚ → ℚ
  | [] => 0
  | x :: xs => xs.foldl max x

/-- `np.mean` over a rational list: sum divided by length. -/
def meanQ (l : List ℚ) : ℚ := l.sum / (l.length : ℚ)

/-- Population variance (`np.std` squared, `ddof = 0`): mean of squared
deviations from the mean. -/
def varianceQ (l : List ℚ) : ℚ := meanQ (l.map (fun x => (x - meanQ l) ^ 2))

/-- `np.std`: square root of the population variance, as a real number. -/
noncomputable def stdR (l : List ℚ) : ℝ := Real.sqrt ((varianceQ l : ℚ) : ℝ)

/-- Mean absolute finite-difference gradient: `np.mean(np.abs(np.gradient(T)))`,
the `avg_grad` of `thermal_curvature` and the value of `gradient_magnitude`. -/
def avgGradQ (T : List ℚ) : ℚ := meanQ ((npGradient T).map (fun g => |g|))

/-- `ThermalFieldAnalyzer.thermal_curvature`: `arctan(avg_gradient / baseline)`
(the 1-D branch of the source, where the gradient magnitude is the absolute
value of the finite-difference derivative). -/
noncomputable def thermalCurvature (T : List ℚ) (baseline : ℚ) : ℝ :=
  Real.arctan (((avgGradQ T : ℚ) : ℝ) / ((baseline : ℚ) : ℝ))

/-- `ThermalFieldAnalyzer.gradient_magnitude`: average gradient magnitude. -/
def gradientMagnitude (T : List ℚ) : ℚ := avgGradQ T

/-- The normalized temperature-deviation vector of `thermal_entropy`:
`T_norm = |T - baseline| / (sum(|T - baseline|) + EPSILON)`. -/
def tNormalized (T : List ℚ) (b : ℚ) : List ℚ :=
  let raw := T.map (fun t => |t - b|)
  raw.map (fun x => x / (raw.sum + EPSILON))

/-- The normalized load vector of `thermal_entropy`:
`load_norm = load / (sum(load) + EPSILON)`. -/
def loadNormalized (load : List ℚ) : List ℚ :=
  load.map (fun x => x / (load.sum + EPSILON))

/-- The raw coupling vector of `thermal_entropy`: `T_norm * load_norm`
(elementwise). -/
def couplingRaw (T load : List ℚ) (b : ℚ) : List ℚ :=
  List.zipWith (fun x y => x * y) (tNormalized T b) (loadNormalized load)

/-- The renormalized coupling distribution of `thermal_entropy`:
`coupling / (sum(coupling) + EPSILON)`. -/
def couplingNormalized (T load : List ℚ) (b : ℚ) : List ℚ :=
  let c := couplingRaw T load b
  c.map (fun x => x / (c.sum + EPSILON))

/-- The entries of the coupling distribution surviving the
`coupling > EPSILON` filter of `thermal_entropy`; exactly the arguments fed
to `np.log`. -/
def couplingFiltered (T load : List ℚ) (b : ℚ) : List ℚ :=
  (couplingNormalized T load b).filter (fun p => EPSILON < p)

/-- `ThermalFieldAnalyzer.thermal_entropy`:
`-Σ p ln p` over the filtered coupling distribution (`b` is the analyzer's
`baseline_temp`). -/
noncomputable def thermalEntropy (T load : List ℚ) (b : ℚ) : ℝ :=
  -((couplingFiltered T load b).map (fun p => ((p : ℚ) : ℝ) * Real.log ((p : ℚ) : ℝ))).sum

/-- `ThermalFieldAnalyzer.entropy_reduction`:
`(S_before - S_after) / S_before`, or `0.0` when `S_before < EPSILON`. -/
noncomputable def entropyReduction (Tb Ta load : List ℚ) (b : ℚ) : ℝ :=
  let Sb := thermalEntropy Tb load b
  let Sa := thermalEntropy Ta load b
  if Sb < ((EPSILON : ℚ) : ℝ) then 0 else (Sb - Sa) / Sb

/-- `ThermalFieldAnalyzer.homeostasis_score`: mean absolute deviation
against the standard deviation of the target, with the constant-target
branch and the final clamp into `[0, 1]`. -/
noncomputable def homeostasisScore (Ta Tt : List ℚ) : ℝ :=
  let meanDev : ℚ := meanQ (List.zipWith (fun a b => |a - b|) Ta Tt)
  if stdR Tt < ((EPSILON : ℚ) : ℝ) then
    (if meanDev < EPSILON then (1 : ℝ) else 0)
  else
    max 0 (min 1 (1 - ((meanDev : ℚ) : ℝ) / stdR Tt))

/-- Mean of a real list. -/
noncomputable def meanR (l : List ℝ) : ℝ := l.sum / (l.length : ℝ)

/-- `ThermalFieldAnalyzer.alignment_coefficient`: mean elementwise product
of the two z-score-normalized fields (`std + EPSILON` in each denominator). -/
noncomputable def alignmentCoefficient (T load : List ℚ) : ℝ :=
  let Tn : List ℝ := T.map (fun x => (((x : ℚ) : ℝ) - ((meanQ T : ℚ) : ℝ)) / (stdR T + ((EPSILON : ℚ) : ℝ)))
  let Ln : List ℝ := load.map (fun x => (((x : ℚ) : ℝ) - ((meanQ load : ℚ) : ℝ)) / (stdR load + ((EPSILON : ℚ) : ℝ)))
  meanR (List.zipWith (fun a b => a * b) Tn Ln)

/-- `CoolingOptimizer.optimize_temperature`: one explicit-Euler step of
`dT/dt = alpha * Laplacian(T) - beta * (T - T_load)` with
`T_load = 298.15 + TEMP_LOAD_COEFFICIENT * load / (max(load) + EPSILON)`
and `Laplacian = np.gradient(np.gradient(T))`. -/
def optimizeTemperature (alpha beta : ℚ) (T load : List ℚ) (dt : ℚ) : List ℚ :=
  let tLoad := load.map (fun x => 298.15 + TEMP_LOAD_COEFFICIENT * (x / (npMax load + EPSILON)))
  let lap := npGradient (npGradient T)
  let reaction := List.zipWith (fun t tl => t - tl) T tLoad
  let dTdt := List.zipWith (fun lp r => alpha * lp - beta * r) lap reaction
  List.zipWith (fun t d => t + dt * d) T dTdt

/-! ## Helper lemmas -/

lemma length_gradAux (p : ℚ) (l : List ℚ) : (gradAux p l).length = l.length := by
  induction l generalizing p with
  | nil => rfl
  | cons c rest ih =>
    cases rest with
    | nil => rfl
    | cons n rest2 => simp [gradAux, ih c]

lemma length_npGradient (l : List ℚ) : (npGradient l).length = l.length := by
  cases l with
  | nil => rfl
  | cons a rest =>
    cases rest with
    | nil => rfl
    | cons b rest2 => simp [npGradient, length_gradAux]

lemma getD_zipWith (f : ℚ → ℚ → ℚ) (a : List ℚ) :
    ∀ (b : List ℚ) (i : ℕ), i < a.length → i < b.length →
      (List.zipWith f a b).getD i 0 = f (a.getD i 0) (b.getD i 0) := by
  induction a with
  | nil => intro b i h _; simp at h
  | cons x xs ih =>
    intro b i h1 h2
    cases b with
    | nil => simp at h2
    | cons y ys =>
      cases i with
      | zero => rfl
      | succ j =>
        simp only [List.zipWith_cons_cons, List.getD_cons_succ]
        exact ih ys j (by simpa using h1) (by simpa using h2)

lemma getD_map (f : ℚ → ℚ) (l : List ℚ) :
    ∀ i : ℕ, i < l.length → (l.map f).getD i 0 = f (l.getD i 0) := by
  induction l with
  | nil => intro i h; simp at h
  | cons x xs ih =>
    intro i h
    cases i with
    | zero => rfl
    | succ j =>
      simp only [List.map_cons, List.getD_cons_succ]
      exact ih j (by simpa using h)

lemma list_sum_nonpos {l : List ℝ} (h : ∀ x ∈ l, x ≤ 0) : l.sum ≤ 0 := by
  induction l with
  | nil => simp
  | cons x xs ih =>
    simp only [List.sum_cons]
    have hx := h x (List.mem_cons_self x xs)
    have hxs := ih (fun y hy => h y (List.mem_cons_of_mem x hy))
    linarith

lemma avgGradQ_nonneg (T : List ℚ) : 0 ≤ avgGradQ T := by
  unfold avgGradQ meanQ
  apply div_nonneg
  · apply List.sum_nonneg
    intro x hx
    obtain ⟨g, _, rfl⟩ := List.mem_map.1 hx
    exact abs_nonneg g
  · exact Nat.cast_nonneg _

/-! ## C4: thermal_curvature is in [0, π/2) for positive baseline -/

/-- C4: for every field and every baseline > 0, `thermal_curvature` equals
`arctan(mean |gradient| / baseline)`, which is nonnegative and strictly
below π/2. -/
theorem thermalCurvature_range (T : List ℚ) (baseline : ℚ) (hb : 0 < baseline) :
    0 ≤ thermalCurvature T baseline ∧ thermalCurvature T baseline < Real.pi / 2 := by
  constructor
  · unfold thermalCurvature
    have h : (0 : ℝ) ≤ ((avgGradQ T : ℚ) : ℝ) / ((baseline : ℚ) : ℝ) := by
      apply div_nonneg
      · exact_mod_cast avgGradQ_nonneg T
      · exact_mod_cast hb.le
    calc (0 : ℝ) = Real.arctan 0 := Real.arctan_zero.symm
    _ ≤ _ := Real.arctan_strictMono.monotone h
  · exact Real.arctan_lt_pi_div_two _

/-- Witness for C4 at `T = [300, 305, 310]`, `baseline = 298.15`. -/
theorem thermalCurvature_range_witness :
    0 ≤ thermalCurvature [300, 305, 310] 298.15 ∧
      thermalCurvature [300, 305, 310] 298.15 < Real.pi / 2 :=
  thermalCurvature_range [300, 305, 310] 298.15 (by norm_num)

/-! ## C3: homeostasis_score lies in [0, 1] -/

/-- C3: for same-length fields, `homeostasis_score` always lies in the
closed interval [0, 1]; in the near-constant-target branch
(`std(T_target) < EPSILON`) it is exactly 1 or exactly 0, and otherwise it
is the clamp of `1 - mean(|T_actual - T_target|) / std(T_target)`. -/
theorem homeostasisScore_mem_unit (Ta Tt : List ℚ) (hlen : Ta.length = Tt.length) :
    0 ≤ homeostasisScore Ta Tt ∧ homeostasisScore Ta Tt ≤ 1 ∧
      (stdR Tt < ((EPSILON : ℚ) : ℝ) →
        homeostasisScore Ta Tt = 1 ∨ homeostasisScore Ta Tt = 0) ∧
      (¬ stdR Tt < ((EPSILON : ℚ) : ℝ) →
        homeostasisScore Ta Tt =
          max 0 (min 1 (1 - ((meanQ (List.zipWith (fun a b => |a - b|) Ta Tt) : ℚ) : ℝ) / stdR Tt))) := by
  simp only [homeostasisScore]
  split_ifs with h1 h2
  · exact ⟨by norm_num, by norm_num, fun _ => Or.inl rfl, fun hc => absurd h1 hc⟩
  · exact ⟨le_refl 0, by norm_num, fun _ => Or.inr rfl, fun hc => absurd h1 hc⟩
  · refine ⟨le_max_left 0 _, max_le zero_le_one (min_le_left 1 _), fun hc => absurd hc h1, fun _ => rfl⟩

/-- Witness for C3 at `T_actual = [300, 302]`, `T_target = [298, 299]`. -/
theorem homeostasisScore_mem_unit_witness :
    0 ≤ homeostasisScore [300, 302] [298, 299] ∧
      homeostasisScore [300, 302] [298, 299] ≤ 1 ∧
      (stdR [298, 299] < ((EPSILON : ℚ) : ℝ) →
        homeostasisScore [300, 302] [298, 299] = 1 ∨
          homeostasisScore [300, 302] [298, 299] = 0) ∧
      (¬ stdR [298, 299] < ((EPSILON : ℚ) : ℝ) →
        homeostasisScore [300, 302] [298, 299] =
          max 0 (min 1 (1 - ((meanQ (List.zipWith (fun a b => |a - b|) [300, 302] [298, 299]) : ℚ) : ℝ) / stdR [298, 299]))) :=
  homeostasisScore_mem_unit [300, 302] [298, 299] (by decide)

/-! ## C9: homeostasis_score of a field against itself is 1 -/

lemma zipWith_absSub_self (T : List ℚ) :
    List.zipWith (fun a b => |a - b|) T T = T.map (fun _ => (0 : ℚ)) := by
  induction T with
  | nil => rfl
  | cons a t ih => simp [ih]

lemma meanQ_map_zero (T : List ℚ) : meanQ (T.map (fun _ => (0 : ℚ))) = 0 := by
  unfold meanQ
  have h : (T.map (fun _ => (0 : ℚ))).sum = 0 := by
    induction T with
    | nil => rfl
    | cons a t ih => simp [ih]
  rw [h, zero_div]

/-- C9: `homeostasis_score(T, T) = 1` for every field `T`: the mean
absolute deviation vanishes, so the constant-target branch returns 1 and
the general branch clamps `1 - 0` to 1. -/
theorem homeostasisScore_self (T : List ℚ) : homeostasisScore T T = 1 := by
  simp only [homeostasisScore, zipWith_absSub_self, meanQ_map_zero]
  split_ifs with h1 h2
  · rfl
  · exact absurd (by norm_num [EPSILON] : (0 : ℚ) < EPSILON) h2
  · push_cast
    rw [zero_div, sub_zero, min_self]
    exact max_eq_right zero_le_one

/-! ## C1: optimize_temperature computes the explicit Euler step exactly -/

/-- C1: for fields of length ≥ 2 (position-aligned, as required by the
data model), `optimize_temperature` returns a field of the same length
whose `i`-th entry is exactly
`T[i] + dt * (alpha * Laplacian(T)[i] - beta * (T[i] - T_load[i]))`, where
the Laplacian is the gradient of the gradient of `T` and
`T_load[i] = 298.15 + 5.0 * (load[i] / (max(load) + EPSILON))` with the
fixed constant 298.15. -/
theorem optimizeTemperature_formula (alpha beta dt : ℚ) (T load : List ℚ)
    (hlen : load.length = T.length) (h2 : 2 ≤ T.length) :
    (optimizeTemperature alpha beta T load dt).length = T.length ∧
    ∀ i : ℕ, i < T.length →
      (optimizeTemperature alpha beta T load dt).getD i 0 =
        T.getD i 0 + dt * (alpha * (npGradient (npGradient T)).getD i 0
          - beta * (T.getD i 0 -
              (298.15 + 5.0 * (load.getD i 0 / (npMax load + EPSILON))))) := by
  have hTl : (load.map (fun x =>
      298.15 + TEMP_LOAD_COEFFICIENT * (x / (npMax load + EPSILON)))).length = T.length := by
    rw [List.length_map, hlen]
  have hlap : (npGradient (npGradient T)).length = T.length := by
    rw [length_npGradient, length_npGradient]
  constructor
  · simp only [optimizeTemperature, List.length_zipWith, hTl, hlap, List.length_map, hlen]
    omega
  · intro i hi
    simp only [optimizeTemperature]
    rw [getD_zipWith _ _ _ i hi
        (by simp only [List.length_zipWith, hTl, hlap, List.length_map, hlen]; omega)]
    rw [getD_zipWith _ _ _ i (by omega : i < (npGradient (npGradient T)).length)
        (by simp only [List.length_zipWith, hTl, List.length_map, hlen]; omega)]
    rw [getD_zipWith _ _ _ i hi (by omega : i < (load.map (fun x =>
        298.15 + TEMP_LOAD_COEFFICIENT * (x / (npMax load + EPSILON)))).length)]
    rw [getD_map _ _ i (by omega : i < load.length)]
    norm_num [TEMP_LOAD_COEFFICIENT]

/-- Witness for C1 at `alpha = 1/10`, `beta = 1/2`, `T = [300, 305, 310]`,
`load = [1, 2, 4]`, `dt = 1`. -/
theorem optimizeTemperature_formula_witness :
    (optimizeTemperature (1/10) (1/2) [300, 305, 310] [1, 2, 4] 1).length = 3 ∧
    ∀ i : ℕ, i < 3 →
      (optimizeTemperature (1/10) (1/2) [300, 305, 310] [1, 2, 4] 1).getD i 0 =
        ([300, 305, 310] : List ℚ).getD i 0 + 1 * ((1/10) * (npGradient (npGradient [300, 305, 310])).getD i 0
          - (1/2) * (([300, 305, 310] : List ℚ).getD i 0 -
              (298.15 + 5.0 * (([1, 2, 4] : List ℚ).getD i 0 / (npMax [1, 2, 4] + EPSILON))))) :=
  optimizeTemperature_formula (1/10) (1/2) 1 [300, 305, 310] [1, 2, 4]
    (by decide) (by decide)

/-! ## C2: the EPSILON floor and the division / log safety -/

/-- The denominators of the three divisions performed by `thermal_entropy`:
the temperature-deviation normalization, the load normalization and the
coupling renormalization (each is `sum + EPSILON` in the source). -/
def entropyDenoms (T load : List ℚ) (b : ℚ) : List ℚ :=
  [(T.map (fun t => |t - b|)).sum + EPSILON,
   load.sum + EPSILON,
   (couplingRaw T load b).sum + EPSILON]

/-- The denominator of the single division performed by `thermal_curvature`
(the caller-supplied baseline; no EPSILON floor, no guard in the source). -/
def curvatureDenoms (baseline : ℚ) : List ℚ := [baseline]

/-- The denominators of the divisions performed by `homeostasis_score`:
none in the constant-target branch, `std(T_target)` otherwise. -/
noncomputable def homeostasisDenoms (Tt : List ℚ) : List ℝ :=
  if stdR Tt < ((EPSILON : ℚ) : ℝ) then [] else [stdR Tt]

/-- The denominators of the divisions performed by `alignment_coefficient`:
`std + EPSILON` for each of the two z-score normalizations. -/
noncomputable def alignmentDenoms (T load : List ℚ) : List ℝ :=
  [stdR T + ((EPSILON : ℚ) : ℝ), stdR load + ((EPSILON : ℚ) : ℝ)]

/-- The denominators of the divisions performed by `entropy_reduction`:
none in the guarded branch (`S_before < EPSILON`), `S_before` otherwise. -/
noncomputable def entropyReductionDenoms (Tb load : List ℚ) (b : ℚ) : List ℝ :=
  if thermalEntropy Tb load b < ((EPSILON : ℚ) : ℝ) then []
  else [thermalEntropy Tb load b]

lemma EPSILON_pos : (0 : ℚ) < EPSILON := by norm_num [EPSILON]

lemma tNormalized_nonneg (T : List ℚ) (b : ℚ) : ∀ x ∈ tNormalized T b, 0 ≤ x := by
  intro x hx
  simp only [tNormalized, List.mem_map] at hx
  obtain ⟨y, ⟨t, _, rfl⟩, rfl⟩ := hx
  apply div_nonneg (abs_nonneg _)
  have hs : 0 ≤ (T.map (fun t => |t - b|)).sum := by
    apply List.sum_nonneg
    intro z hz
    obtain ⟨u, _, rfl⟩ := List.mem_map.1 hz
    exact abs_nonneg _
  linarith [EPSILON_pos]

lemma loadNormalized_nonneg (load : List ℚ) (h : ∀ x ∈ load, 0 ≤ x) :
    ∀ x ∈ loadNormalized load, 0 ≤ x := by
  intro x hx
  simp only [loadNormalized, List.mem_map] at hx
  obtain ⟨y, hy, rfl⟩ := hx
  apply div_nonneg (h y hy)
  have hs : 0 ≤ load.sum := List.sum_nonneg h
  linarith [EPSILON_pos]

lemma zipWith_mul_nonneg (a : List ℚ) :
    ∀ b : List ℚ, (∀ x ∈ a, 0 ≤ x) → (∀ y ∈ b, 0 ≤ y) →
      ∀ z ∈ List.zipWith (fun x y => x * y) a b, 0 ≤ z := by
  induction a with
  | nil => intro b _ _ z hz; simp at hz
  | cons x xs ih =>
    intro b ha hb z hz
    cases b with
    | nil => simp at hz
    | cons y ys =>
      simp only [List.zipWith_cons_cons, List.mem_cons] at hz
      rcases hz with rfl | hz
      · exact mul_nonneg (ha x (List.mem_cons_self x xs)) (hb y (List.mem_cons_self y ys))
      · exact ih ys (fun u hu => ha u (List.mem_cons_of_mem x hu))
          (fun v hv => hb v (List.mem_cons_of_mem y hv)) z hz

lemma couplingRaw_nonneg (T load : List ℚ) (b : ℚ) (h : ∀ x ∈ load, 0 ≤ x) :
    ∀ z ∈ couplingRaw T load b, 0 ≤ z :=
  zipWith_mul_nonneg _ _ (tNormalized_nonneg T b) (loadNormalized_nonneg load h)

/-- C2 (amended): with the stated precondition `baseline > 0` and an
entrywise-nonnegative load field, every division denominator evaluated by
the five metric operations is nonzero (the EPSILON-floored ones are
strictly positive, and the guarded ones are at least EPSILON), and every
argument passed to the logarithm in `thermal_entropy` is strictly greater
than EPSILON, hence positive.  The original universally-quantified claim
is false: a load field summing to exactly `-EPSILON` zeroes the load
normalization denominator (see the counterexample). -/
theorem epsilonFloor_denominators (T load Tt Tb la lb : List ℚ) (b baseline : ℚ)
    (hbase : 0 < baseline) (hload : ∀ x ∈ load, 0 ≤ x) :
    (∀ d ∈ curvatureDenoms baseline, 0 < d) ∧
    (∀ d ∈ entropyDenoms T load b, 0 < d) ∧
    (∀ p ∈ couplingFiltered T load b, EPSILON < p) ∧
    (∀ d ∈ homeostasisDenoms Tt, d ≠ 0) ∧
    (∀ d ∈ alignmentDenoms la lb, 0 < d) ∧
    (∀ d ∈ entropyReductionDenoms Tb load b, d ≠ 0) := by
  have hε : (0 : ℝ) < ((EPSILON : ℚ) : ℝ) := by exact_mod_cast EPSILON_pos
  refine ⟨?_, ?_, ?_, ?_, ?_, ?_⟩
  · intro d hd
    simp only [curvatureDenoms, List.mem_singleton] at hd
    exact hd ▸ hbase
  · intro d hd
    have h1 : 0 ≤ (T.map (fun t => |t - b|)).sum := by
      apply List.sum_nonneg
      intro z hz
      obtain ⟨u, _, rfl⟩ := List.mem_map.1 hz
      exact abs_nonneg _
    have h2 : 0 ≤ load.sum := List.sum_nonneg hload
    have h3 : 0 ≤ (couplingRaw T load b).sum :=
      List.sum_nonneg (couplingRaw_nonneg T load b hload)
    simp only [entropyDenoms, List.mem_cons, List.not_mem_nil, or_false] at hd
    rcases hd with rfl | rfl | rfl
    · linarith [EPSILON_pos]
    · linarith [EPSILON_pos]
    · linarith [EPSILON_pos]
  · intro p hp
    simp only [couplingFiltered, List.mem_filter] at hp
    exact of_decide_eq_true hp.2
  · intro d hd
    simp only [homeostasisDenoms] at hd
    split_ifs at hd with h1
    · simp at hd
    · simp only [List.mem_singleton] at hd
      subst hd
      push_neg at h1
      linarith
  · intro d hd
    simp only [alignmentDenoms, List.mem_cons, List.not_mem_nil, or_false] at hd
    rcases hd with rfl | rfl
    · have := Real.sqrt_nonneg ((varianceQ la : ℚ) : ℝ)
      simp only [stdR]
      linarith
    · have := Real.sqrt_nonneg ((varianceQ lb : ℚ) : ℝ)
      simp only [stdR]
      linarith
  · intro d hd
    simp only [entropyReductionDenoms] at hd
    split_ifs at hd with h1
    · simp at hd
    · simp only [List.mem_singleton] at hd
      subst hd
      push_neg at h1
      linarith

/-- Counterexample to C2 as stated: for the load field
`[-2e-10, 1e-10]` (which sums to exactly `-EPSILON`), the load
normalization denominator `sum(load) + EPSILON` evaluated by
`thermal_entropy` is exactly zero — a division by zero is evaluated, so the
denominators are not bounded away from zero for arbitrary inputs. -/
theorem epsilonFloor_counterexample :
    (0 : ℚ) ∈ entropyDenoms [0, 0] [-1/5000000000, 1/10000000000] 0 := by
  norm_num [entropyDenoms, couplingRaw, tNormalized, loadNormalized, EPSILON]

/-- Witness for the amended C2 at concrete fields with nonnegative load. -/
theorem epsilonFloor_denominators_witness :
    (∀ d ∈ curvatureDenoms 298.15, 0 < d) ∧
    (∀ d ∈ entropyDenoms [300, 301] [1, 2] 298.15, 0 < d) ∧
    (∀ p ∈ couplingFiltered [300, 301] [1, 2] 298.15, EPSILON < p) ∧
    (∀ d ∈ homeostasisDenoms [1, 2], d ≠ 0) ∧
    (∀ d ∈ alignmentDenoms [1] [2], 0 < d) ∧
    (∀ d ∈ entropyReductionDenoms [2] [1, 2] 298.15, d ≠ 0) :=
  epsilonFloor_denominators [300, 301] [1, 2] [1, 2] [2] [1] [2] 298.15 298.15
    (by norm_num) (by norm_num)

/-! ## C5: thermal_entropy is nonnegative for nonnegative loads -/

lemma couplingFiltered_mem_bounds (T load : List ℚ) (b : ℚ)
    (hload : ∀ x ∈ load, 0 ≤ x) :
    ∀ p ∈ couplingFiltered T load b, 0 < p ∧ p ≤ 1 := by
  intro p hp
  simp only [couplingFiltered, List.mem_filter] at hp
  obtain ⟨hpmem, hpgt⟩ := hp
  have hgt : EPSILON < p := of_decide_eq_true hpgt
  refine ⟨lt_trans EPSILON_pos hgt, ?_⟩
  simp only [couplingNormalized, List.mem_map] at hpmem
  obtain ⟨c, hc, rfl⟩ := hpmem
  have hc0 : 0 ≤ c := couplingRaw_nonneg T load b hload c hc
  have hcS : c ≤ (couplingRaw T load b).sum :=
    List.single_le_sum (couplingRaw_nonneg T load b hload) c hc
  have hS0 : 0 ≤ (couplingRaw T load b).sum :=
    List.sum_nonneg (couplingRaw_nonneg T load b hload)
  rw [div_le_one (by linarith [EPSILON_pos])]
  linarith [EPSILON_pos]

lemma thermalEntropy_nonneg_aux (T load : List ℚ) (b : ℚ)
    (hload : ∀ x ∈ load, 0 ≤ x) : 0 ≤ thermalEntropy T load b := by
  unfold thermalEntropy
  rw [neg_nonneg]
  apply list_sum_nonpos
  intro x hx
  obtain ⟨p, hp, rfl⟩ := List.mem_map.1 hx
  obtain ⟨hp0, hp1⟩ := couplingFiltered_mem_bounds T load b hload p hp
  have hlog : Real.log ((p : ℚ) : ℝ) ≤ 0 :=
    Real.log_nonpos (by exact_mod_cast hp0.le) (by exact_mod_cast hp1)
  have hpc : (0 : ℝ) ≤ ((p : ℚ) : ℝ) := by exact_mod_cast hp0.le
  exact mul_nonpos_iff.2 (Or.inl ⟨hpc, hlog⟩)

/-- C5 (amended): for same-length fields with an entrywise-nonnegative load
field, `thermal_entropy` is nonnegative: every surviving coupling entry
lies in `(EPSILON, 1]`, so each term `-p ln p` is nonnegative.  The
original claim over arbitrary finite fields is false: a load field with a
negative entry can push a renormalized coupling entry above 1, making the
entropy negative (see the counterexample). -/
theorem thermalEntropy_nonneg (T load : List ℚ) (b : ℚ)
    (hlen : T.length = load.length) (hload : ∀ x ∈ load, 0 ≤ x) :
    0 ≤ thermalEntropy T load b :=
  thermalEntropy_nonneg_aux T load b hload

/-- Witness for C5 at `T = [300, 301]`, `load = [1, 2]`,
`baseline = 298.15`. -/
theorem thermalEntropy_nonneg_witness :
    0 ≤ thermalEntropy [300, 301] [1, 2] 298.15 :=
  thermalEntropy_nonneg [300, 301] [1, 2] 298.15 (by decide) (by norm_num)

/-- Counterexample to C5 as stated: with `baseline = 0`, `T = [1, 1]` and
the mixed-sign load `[2, -1]`, the surviving renormalized coupling entry is
close to 2 (> 1), so `thermal_entropy` is negative. -/
theorem thermalEntropy_negative : thermalEntropy [1, 1] [2, -1] 0 < 0 := by
  have hL : couplingFiltered [1, 1] [2, -1] 0 =
      [2000000000000000000000000000000/1000000000200000000030000000001] := by
    norm_num [couplingFiltered, couplingNormalized, couplingRaw, tNormalized,
      loadNormalized, EPSILON, List.filter]
  have h1 : (1 : ℝ) <
      ((2000000000000000000000000000000/1000000000200000000030000000001 : ℚ) : ℝ) := by
    push_cast
    norm_num
  have hlog : 0 < Real.log
      ((2000000000000000000000000000000/1000000000200000000030000000001 : ℚ) : ℝ) :=
    Real.log_pos h1
  rw [thermalEntropy, hL]
  simp only [List.map_cons, List.map_nil, List.sum_cons, List.sum_nil, add_zero]
  nlinarith [hlog, h1]

/-! ## C6: the entropy_reduction guard -/

/-- C6: `entropy_reduction` returns exactly 0 whenever
`S_before = thermal_entropy(T_before, load)` is below EPSILON, regardless
of `S_after`; otherwise it returns `(S_before - S_after) / S_before`. -/
theorem entropyReduction_guard (Tb Ta load : List ℚ) (b : ℚ) :
    (thermalEntropy Tb load b < ((EPSILON : ℚ) : ℝ) →
      entropyReduction Tb Ta load b = 0) ∧
    (¬ thermalEntropy Tb load b < ((EPSILON : ℚ) : ℝ) →
      entropyReduction Tb Ta load b =
        (thermalEntropy Tb load b - thermalEntropy Ta load b) / thermalEntropy Tb load b) := by
  simp only [entropyReduction]
  split_ifs with h
  · exact ⟨fun _ => rfl, fun hc => absurd h hc⟩
  · exact ⟨fun hc => absurd hc h, fun _ => rfl⟩

/-- Witness for C6: with a zero load field the coupling distribution is
entirely filtered out, so `S_before = 0 < EPSILON` and `entropy_reduction`
returns exactly 0 even though the two temperature fields differ. -/
theorem entropyReduction_guard_witness :
    entropyReduction [1, 2] [3, 4] [0, 0] 0 = 0 := by
  have hf : couplingFiltered [1, 2] [0, 0] 0 = [] := by
    norm_num [couplingFiltered, couplingNormalized, couplingRaw, tNormalized,
      loadNormalized, EPSILON, List.filter]
  have h0 : thermalEntropy [1, 2] [0, 0] 0 < ((EPSILON : ℚ) : ℝ) := by
    rw [thermalEntropy, hf]
    norm_num [EPSILON]
  exact (entropyReduction_guard [1, 2] [3, 4] [0, 0] 0).1 h0

/-! ## C10: entropy_reduction never exceeds 1 (for nonnegative loads) -/

/-- C10 (amended): for an entrywise-nonnegative load field,
`entropy_reduction` never exceeds 1: the guarded branch returns 0, and
otherwise `S_before ≥ EPSILON > 0` and `S_after ≥ 0` give
`(S_before - S_after) / S_before ≤ 1`.  The unrestricted claim is false:
a mixed-sign load can make `S_after` negative, pushing the ratio above 1
(see the counterexample). -/
theorem entropyReduction_le_one (Tb Ta load : List ℚ) (b : ℚ)
    (hload : ∀ x ∈ load, 0 ≤ x) : entropyReduction Tb Ta load b ≤ 1 := by
  have hε : (0 : ℝ) < ((EPSILON : ℚ) : ℝ) := by exact_mod_cast EPSILON_pos
  have hSa : 0 ≤ thermalEntropy Ta load b := thermalEntropy_nonneg_aux Ta load b hload
  simp only [entropyReduction]
  split_ifs with h
  · norm_num
  · push_neg at h
    have hSb : 0 < thermalEntropy Tb load b := lt_of_lt_of_le hε h
    rw [div_le_one hSb]
    linarith

/-- Witness for C10 at `T_before = [300, 301]`, `T_after = [300, 300]`,
`load = [1, 2]`, `baseline = 0`. -/
theorem entropyReduction_le_one_witness :
    entropyReduction [300, 301] [300, 300] [1, 2] 0 ≤ 1 :=
  entropyReduction_le_one [300, 301] [300, 300] [1, 2] 0 (by norm_num)

/-- Two-term Shannon-entropy lower bound used by the C10 counterexample:
if `p ∈ (3/5, 7/10)` and `q ∈ (3/10, 2/5)` then `-(p ln p + q ln q)` is at
least 9/50 (via `ln x ≤ x - 1`). -/
lemma two_term_entropy_lb (p q : ℝ)
    (hp1 : 3/5 < p) (hp2 : p < 7/10) (hq1 : 3/10 < q) (hq2 : q < 2/5) :
    (9/50 : ℝ) ≤ -(p * Real.log p + q * Real.log q) := by
  have hlp : Real.log p ≤ p - 1 := Real.log_le_sub_one_of_pos (by linarith)
  have hlq : Real.log q ≤ q - 1 := Real.log_le_sub_one_of_pos (by linarith)
  have h1 : p * Real.log p ≤ p * (p - 1) :=
    mul_le_mul_of_nonneg_left hlp (by linarith)
  have h2 : q * Real.log q ≤ q * (q - 1) :=
    mul_le_mul_of_nonneg_left hlq (by linarith)
  nlinarith [mul_nonneg (by linarith : (0:ℝ) ≤ p - 3/5) (by linarith : (0:ℝ) ≤ 7/10 - p),
    mul_nonneg (by linarith : (0:ℝ) ≤ q - 3/10) (by linarith : (0:ℝ) ≤ 2/5 - q)]

/-- Counterexample to C10 as stated: with `baseline = 0` and the
mixed-sign load `[2, -1, 1]`, `S_before ≈ 0.64 ≥ EPSILON` while
`S_after ≈ -1.39 < 0`, so `entropy_reduction` exceeds 1. -/
theorem entropyReduction_gt_one :
    1 < entropyReduction [1, 0, 1] [1, 1, 0] [2, -1, 1] 0 := by
  have hB : couplingFiltered [1, 0, 1] [2, -1, 1] 0 =
      [2000000000000000000000000000000/3000000000400000000040000000001,
       1000000000000000000000000000000/3000000000400000000040000000001] := by
    norm_num [couplingFiltered, couplingNormalized, couplingRaw, tNormalized,
      loadNormalized, EPSILON, List.filter]
  have hA : couplingFiltered [1, 1, 0] [2, -1, 1] 0 =
      [2000000000000000000000000000000/1000000000400000000040000000001] := by
    norm_num [couplingFiltered, couplingNormalized, couplingRaw, tNormalized,
      loadNormalized, EPSILON, List.filter]
  have hSbEq : thermalEntropy [1, 0, 1] [2, -1, 1] 0 =
      -(((2000000000000000000000000000000/3000000000400000000040000000001 : ℚ) : ℝ) *
          Real.log ((2000000000000000000000000000000/3000000000400000000040000000001 : ℚ) : ℝ) +
        ((1000000000000000000000000000000/3000000000400000000040000000001 : ℚ) : ℝ) *
          Real.log ((1000000000000000000000000000000/3000000000400000000040000000001 : ℚ) : ℝ)) := by
    rw [thermalEntropy, hB]
    simp only [List.map_cons, List.map_nil, List.sum_cons, List.sum_nil, add_zero]
  have hSaEq : thermalEntropy [1, 1, 0] [2, -1, 1] 0 =
      -(((2000000000000000000000000000000/1000000000400000000040000000001 : ℚ) : ℝ) *
          Real.log ((2000000000000000000000000000000/1000000000400000000040000000001 : ℚ) : ℝ)) := by
    rw [thermalEntropy, hA]
    simp only [List.map_cons, List.map_nil, List.sum_cons, List.sum_nil, add_zero]
  have hSb_lb : (9/50 : ℝ) ≤ thermalEntropy [1, 0, 1] [2, -1, 1] 0 := by
    rw [hSbEq]
    apply two_term_entropy_lb
    · push_cast
      norm_num
    · push_cast
      norm_num
    · push_cast
      norm_num
    · push_cast
      norm_num
  have hr : (1 : ℝ) <
      ((2000000000000000000000000000000/1000000000400000000040000000001 : ℚ) : ℝ) := by
    push_cast
    norm_num
  have hSa_neg : thermalEntropy [1, 1, 0] [2, -1, 1] 0 < 0 := by
    rw [hSaEq]
    have h := mul_pos (lt_trans one_pos hr) (Real.log_pos hr)
    linarith
  have hεlt : ((EPSILON : ℚ) : ℝ) < 9/50 := by
    norm_num [EPSILON]
  simp only [entropyReduction]
  rw [if_neg (by linarith)]
  rw [one_lt_div (by linarith)]
  linarith

/-! ## C7: length mismatches under numpy broadcast semantics -/

/-- numpy's elementwise binary-op semantics on 1-D arrays: equal lengths
operate pointwise, a length-1 operand broadcasts, and any other shape
combination raises a broadcast `ValueError` (modelled as `none`). -/
def npBroadcast {α : Type} (f : α → α → α) (a b : List α) : Option (List α) :=
  if a.length = b.length then some (List.zipWith f a b)
  else
    match a, b with
    | [x], bb => some (bb.map (fun y => f x y))
    | aa, [y] => some (aa.map (fun x => f x y))
    | _, _ => none

/-- `thermal_entropy` under numpy broadcast semantics: the elementwise
product `T_norm * load_norm` is the first point where the two field
lengths meet, so a hard mismatch fails there; all scalar operations are
unchanged from `thermalEntropy`. -/
noncomputable def thermalEntropyNP (T load : List ℚ) (b : ℚ) : Option ℝ :=
  (npBroadcast (fun x y => x * y) (tNormalized T b) (loadNormalized load)).map
    (fun c =>
      let cn := c.map (fun x => x / (c.sum + EPSILON))
      let cf := cn.filter (fun p => EPSILON < p)
      let s := (cf.map (fun p => ((p : ℚ) : ℝ) * Real.log ((p : ℚ) : ℝ))).sum;
      -s)

/-- `alignment_coefficient` under numpy broadcast semantics: the
elementwise product of the two z-score-normalized fields fails on a hard
length mismatch. -/
noncomputable def alignmentCoefficientNP (T load : List ℚ) : Option ℝ :=
  let Tn : List ℝ := T.map (fun x => (((x : ℚ) : ℝ) - ((meanQ T : ℚ) : ℝ)) / (stdR T + ((EPSILON : ℚ) : ℝ)))
  let Ln : List ℝ := load.map (fun x => (((x : ℚ) : ℝ) - ((meanQ load : ℚ) : ℝ)) / (stdR load + ((EPSILON : ℚ) : ℝ)))
  (npBroadcast (fun a b => a * b) Tn Ln).map meanR

lemma npBroadcast_none {α : Type} (f : α → α → α) (a b : List α)
    (h : a.length ≠ b.length) (h1 : a.length ≠ 1) (h2 : b.length ≠ 1) :
    npBroadcast f a b = none := by
  unfold npBroadcast
  rw [if_neg h]
  cases a with
  | nil =>
    cases b with
    | nil => exact absurd rfl h
    | cons y ys =>
      cases ys with
      | nil => exact absurd rfl h2
      | cons z zs => rfl
  | cons x xs =>
    cases xs with
    | nil => exact absurd rfl h1
    | cons w ws =>
      cases b with
      | nil => rfl
      | cons y ys =>
        cases ys with
        | nil => exact absurd rfl h2
        | cons z zs => rfl

/-- C7 (amended): the analyzer's operations indeed perform no explicit
length validation of their own, but a hard length mismatch (unequal
lengths, neither 1) does not propagate silently: the underlying
elementwise arithmetic fails with a broadcast error (modelled as `none`)
in both `thermal_entropy` and `alignment_coefficient`, producing no
result.  Only a length-1 operand broadcasts silently. -/
theorem lengthMismatch_broadcast_error (T load : List ℚ) (b : ℚ)
    (hne : T.length ≠ load.length) (hT : T.length ≠ 1) (hl : load.length ≠ 1) :
    thermalEntropyNP T load b = none ∧ alignmentCoefficientNP T load = none := by
  have h1 : (tNormalized T b).length = T.length := by
    simp [tNormalized]
  have h2 : (loadNormalized load).length = load.length := by
    simp [loadNormalized]
  constructor
  · simp only [thermalEntropyNP]
    rw [npBroadcast_none _ _ _ (by rw [h1, h2]; exact hne) (h1 ▸ hT) (h2 ▸ hl)]
    rfl
  · simp only [alignmentCoefficientNP]
    rw [npBroadcast_none _ _ _ (by simpa using hne) (by simpa using hT)
      (by simpa using hl)]
    rfl

/-- Counterexample to C7 as stated: `thermal_entropy` on fields of lengths
2 and 3 produces no result at all — the elementwise arithmetic fails
(numpy raises a broadcast error) instead of silently propagating. -/
theorem lengthMismatch_counterexample :
    thermalEntropyNP [1, 2] [1, 2, 3] 0 = none := by
  simp only [thermalEntropyNP]
  rw [npBroadcast_none _ _ _ (by simp [tNormalized, loadNormalized])
    (by simp [tNormalized]) (by simp [loadNormalized])]
  rfl

/-- Witness for the amended C7 at lengths 3 and 2. -/
theorem lengthMismatch_broadcast_error_witness :
    thermalEntropyNP [300, 301, 302] [1, 2] 298.15 = none ∧
      alignmentCoefficientNP [300, 301, 302] [1, 2] = none :=
  lengthMismatch_broadcast_error [300, 301, 302] [1, 2] 298.15
    (by decide) (by decide) (by decide)

/-! ## C8: analyzer state — history append, frame conditions -/

/-- `ThermalState`: a timestamped snapshot of a temperature field and a
load field with a baseline temperature. -/
structure ThermalState where
  timestamp : String
  temperature_field : List ℚ
  computational_load : List ℚ
  baseline_temp : ℚ := 298.15

/-- `ThermalMetrics`: the five derived metrics of one state. -/
structure ThermalMetrics where
  curvature : ℝ
  entropy : ℝ
  homeostasis_score : ℝ
  gradient_magnitude : ℝ
  alignment_coefficient : ℝ

/-- `ThermalFieldAnalyzer`'s mutable state: the configured baseline
temperature and the accumulated history of analyzed states. -/
structure ThermalFieldAnalyzer where
  baseline_temp : ℚ := 298.15
  history : List ThermalState := []

/-- `ThermalFieldAnalyzer.analyze_state` with explicit state passing:
computes the five metrics of `state` (target defaulting to a constant
field at the state's baseline), and returns them together with the updated
analyzer, whose history has `state` appended. -/
noncomputable def analyzeState (an : ThermalFieldAnalyzer) (state : ThermalState)
    (target : Option (List ℚ)) : ThermalMetrics × ThermalFieldAnalyzer :=
  let targetTemp := target.getD (state.temperature_field.map (fun _ => state.baseline_temp))
  let metrics : ThermalMetrics :=
    { curvature := thermalCurvature state.temperature_field state.baseline_temp
      entropy := thermalEntropy state.temperature_field state.computational_load an.baseline_temp
      homeostasis_score := homeostasisScore state.temperature_field targetTemp
      gradient_magnitude := ((gradientMagnitude state.temperature_field : ℚ) : ℝ)
      alignment_coefficient := alignmentCoefficient state.temperature_field state.computational_load }
  (metrics, { an with history := an.history ++ [state] })

/-- The `improvements` sub-structure of `optimization_summary`. -/
structure OptimizationImprovements where
  entropy_reduction : ℝ
  curvature_reduction : ℝ
  homeostasis_improvement : ℝ
  gradient_reduction : ℝ
  alignment_improvement : ℝ

/-- The value returned by `optimization_summary`. -/
structure OptimizationSummary where
  before : ThermalMetrics
  after : ThermalMetrics
  improvements : OptimizationImprovements

/-- `ThermalFieldAnalyzer.optimization_summary` with explicit state
passing: analyzes both states (two history appends), computes
`entropy_reduction` on the before/after temperature fields with the
before-state's load, and the four metric deltas. -/
noncomputable def optimizationSummary (an : ThermalFieldAnalyzer)
    (before after : ThermalState) (target : Option (List ℚ)) :
    OptimizationSummary × ThermalFieldAnalyzer :=
  let r1 := analyzeState an before target
  let r2 := analyzeState r1.2 after target
  let er := entropyReduction before.temperature_field after.temperature_field
      before.computational_load an.baseline_temp
  ({ before := r1.1, after := r2.1,
     improvements :=
       { entropy_reduction := er
         curvature_reduction := r1.1.curvature - r2.1.curvature
         homeostasis_improvement := r2.1.homeostasis_score - r1.1.homeostasis_score
         gradient_reduction := r1.1.gradient_magnitude - r2.1.gradient_magnitude
         alignment_improvement := r2.1.alignment_coefficient - r1.1.alignment_coefficient } },
   r2.2)

/-- C8: `analyze_state` appends exactly its argument state at the end of
the analyzer's history and leaves every other analyzer field (in
particular `baseline_temp`) unchanged; `optimization_summary` appends
exactly the before state followed by the after state, and also leaves
`baseline_temp` unchanged. -/
theorem history_append (an : ThermalFieldAnalyzer) (s b a : ThermalState)
    (t t' : Option (List ℚ)) :
    (analyzeState an s t).2.history = an.history ++ [s] ∧
    (analyzeState an s t).2.baseline_temp = an.baseline_temp ∧
    (optimizationSummary an b a t').2.history = an.history ++ [b, a] ∧
    (optimizationSummary an b a t').2.baseline_temp = an.baseline_temp := by
  refine ⟨rfl, rfl, ?_, rfl⟩
  simp [optimizationSummary, analyzeState]

end ThermalField
